import Mathlib

/-!
Verification of the toylisp interpreter (github.com/soishi1/toylisp).

Shallow embedding of the Go sources:
  * `sexpressions/sexpressions.go` — the `SExp` data type and its methods;
  * `evaluator/evaluator.go`       — AST compilation (`makeAST` and friends),
    the environment chain (`Env`), and evaluation (`ast.Eval`);
  * the tokenizer (`tokenizer.go`) and parser (`parser.go`) — for the
    render/re-parse round-trip claims.

Modelling conventions:
  * Go pointer-linked `Env` values become indices (`Nat`) into an explicit
    store (`Store := List EnvData`); in-place mutation becomes store update.
    This preserves the sharing/aliasing behaviour of the Go code.
  * Go's `int` is a 64-bit two's-complement integer; additions in the `add`
    primitive are wrapped with `wrap64`.
  * The Go `Value` struct embeds a `*sexpressions.SExp` that is nil for
    closure and primitive values; calling the promoted methods `IsNil`/`AsInt`
    on such a value dereferences a nil pointer and panics at runtime.  This is
    modelled by `Value.isNilGo` / `Value.asIntGo` returning `none`, which the
    evaluator turns into the `Outcome.panicked` outcome (a Go runtime panic
    that crashes the process; no `recover` exists anywhere in the program).
  * Recursive functions take an explicit fuel argument (`Nat`); exhausted fuel
    is `Option.none`, modelling nontermination / stack exhaustion, which the
    spec declares an acceptable failure mode.  Fuel is consumed structurally
    so that all definitions reduce inside the kernel.
-/

namespace ToyLisp

/-! ## S-expressions (`sexpressions/sexpressions.go`) -/

/-- `sexpressions.SExp`: tagged union of list / symbol / integer / string
(`Type` field plus untyped `Value` field in Go). A Go `ListType` node with a
nil `Value` slice behaves exactly like an empty list (`AsList` returns
`nil, true`), so both are modelled as `.list []`. -/
inductive SExp where
  | list (elems : List SExp)
  | symbol (name : String)
  | int (value : Int)
  | str (value : String)

/-- `SExp.AsList`: the list payload when the tag is `ListType`. -/
def SExp.asList : SExp → Option (List SExp)
  | .list xs => some xs
  | _ => none

/-- `SExp.AsSymbol`. -/
def SExp.asSymbol : SExp → Option String
  | .symbol s => some s
  | _ => none

/-- `SExp.AsInt`. -/
def SExp.asInt : SExp → Option Int
  | .int n => some n
  | _ => none

/-- `SExp.AsString`. -/
def SExp.asString : SExp → Option String
  | .str s => some s
  | _ => none

/-- `SExp.IsNil`: a list of length zero (the canonical nil). -/
def SExp.isNil : SExp → Bool
  | .list xs => xs.isEmpty
  | _ => false

/-! ## Decimal rendering (Go `fmt.Sprintf("%v", int)`) -/

/-- Decimal digit character for a value `< 10` (unreachable default). -/
def digitChar : Nat → Char
  | 0 => '0'
  | 1 => '1'
  | 2 => '2'
  | 3 => '3'
  | 4 => '4'
  | 5 => '5'
  | 6 => '6'
  | 7 => '7'
  | 8 => '8'
  | _ => '9'

/-- Most-significant-first decimal digits of a natural number; `fuel` bounds
the recursion depth (`n + 1` always suffices since `n / 10 < n`). -/
def natDigitsF : Nat → Nat → List Char
  | 0, _ => []
  | f + 1, n =>
    if n < 10 then [digitChar n]
    else natDigitsF f (n / 10) ++ [digitChar (n % 10)]

/-- Modelled from the Go standard library: `fmt` decimal rendering of a
nonnegative integer. -/
def natRepr (n : Nat) : String := ⟨natDigitsF (n + 1) n⟩

/-- Modelled from the Go standard library: `fmt.Sprintf("%v", i)` for a Go
`int`: decimal digits, preceded by `-` when negative. -/
def intRepr (i : Int) : String :=
  if i < 0 then "-" ++ natRepr (-i).toNat else natRepr i.toNat

/-! ## Go `%q` string quoting (`strconv.Quote`) -/

/-- Lowercase hexadecimal digit (values `< 16`; unreachable default). -/
def hexDigitChar : Nat → Char
  | 0 => '0'
  | 1 => '1'
  | 2 => '2'
  | 3 => '3'
  | 4 => '4'
  | 5 => '5'
  | 6 => '6'
  | 7 => '7'
  | 8 => '8'
  | 9 => '9'
  | 10 => 'a'
  | 11 => 'b'
  | 12 => 'c'
  | 13 => 'd'
  | 14 => 'e'
  | _ => 'f'

/-- Modelled from the Go standard library: the body of `strconv.Quote` for a
single character.  Quote and backslash are backslash-escaped, the standard
control characters get their mnemonic escapes, other ASCII control characters
are hex-escaped, printable ASCII is emitted verbatim.  (Printable non-ASCII
runes are also emitted verbatim by Go; the theorems below use only ASCII.) -/
def goQuoteChar (c : Char) : List Char :=
  if c = '"' then ['\\', '"']
  else if c = '\\' then ['\\', '\\']
  else if c = '\x07' then ['\\', 'a']
  else if c = '\x08' then ['\\', 'b']
  else if c = '\x0c' then ['\\', 'f']
  else if c = '\n' then ['\\', 'n']
  else if c = '\r' then ['\\', 'r']
  else if c = '\t' then ['\\', 't']
  else if c = '\x0b' then ['\\', 'v']
  else if 0x20 ≤ c.toNat ∧ c.toNat ≤ 0x7e then [c]
  else if c.toNat < 0x20 ∨ c.toNat = 0x7f then
    ['\\', 'x', hexDigitChar (c.toNat / 16), hexDigitChar (c.toNat % 16)]
  else [c]

/-- The quoted body: each character expanded by `goQuoteChar`. -/
def goQuoteInner : List Char → List Char
  | [] => []
  | c :: rest => goQuoteChar c ++ goQuoteInner rest

/-- Modelled from the Go standard library: `fmt.Sprintf("%q", s)` /
`strconv.Quote`: the escaped body surrounded by double quotes. -/
def goQuote (s : String) : String := ⟨'"' :: (goQuoteInner s.data ++ ['"'])⟩

/-! ## `SExp.String` rendering -/

mutual

/-- `SExp.String`: lists as `(a b c)`, integers as decimal, symbols verbatim,
strings `%q`-quoted. -/
def sexpString : SExp → String
  | .list xs => "(" ++ sexpStringList xs ++ ")"
  | .int n => intRepr n
  | .symbol s => s
  | .str s => goQuote s

/-- `strings.Join(strs, " ")` over the rendered elements. -/
def sexpStringList : List SExp → String
  | [] => ""
  | [x] => sexpString x
  | x :: y :: rest => sexpString x ++ " " ++ sexpStringList (y :: rest)

end

/-- Go `fmt` rendering of a `[]*sexpressions.SExp` slice (used in the
`%+v` error messages of the AST compiler): space-joined elements inside
square brackets, each element via its `String` method. -/
def sexpsSliceStr (xs : List SExp) : String := "[" ++ sexpStringList xs ++ "]"

/-! ## Runtime values and AST (`evaluator/evaluator.go`) -/

/-- The primitive functions registered by `NewEnv`; the shipped interpreter
registers exactly one, `add`. -/
inductive Prim where
  | add

mutual

/-- `evaluator.Value`: tagged union of wrapped s-expression, closure
(`LambdaValue`), and primitive.  `nilPtr` models a nil `*Value` Go pointer
(producible only by evaluating a lambda with an empty body list, which the
AST compiler never builds). -/
inductive Value where
  | sexpVal (s : SExp)
  | lambdaVal (params : List String) (body : List AST) (envId : Nat)
  | primVal (p : Prim)
  | nilPtr

/-- The `ast` interface: one constructor per implementation
(`literalAST`, `lookupAST`, `ifAST`, `setAST`, `lambdaAST`,
`applicationAST`). -/
inductive AST where
  | literal (v : Value)
  | lookupA (symbol : String)
  | ifA (cond thn els : AST)
  | setA (symbol : String) (value : AST)
  | lambdaA (symbols : List String) (bodyASTs : List AST)
  | appA (fn : AST) (args : List AST)

end

/-- The package-level `Nil` value: an `SExp`-typed value wrapping the empty
list. -/
def nilValue : Value := .sexpVal (.list [])

/-- `Value.IsNil` as the Go code calls it: the method is promoted from the
embedded `*sexpressions.SExp`, which is nil for `Lambda`/`Primitive` values
(and for a nil `*Value`); calling it there dereferences a nil pointer, a
runtime panic, modelled as `none`. -/
def Value.isNilGo : Value → Option Bool
  | .sexpVal s => some s.isNil
  | _ => none

/-- `Value.AsInt` via the same promoted-method mechanism: `none` is the nil
dereference panic, `some none` a non-integer s-expression, `some (some n)`
an integer. -/
def Value.asIntGo : Value → Option (Option Int)
  | .sexpVal s => some s.asInt
  | _ => none

/-- `Value.String`: the wrapped s-expression's rendering, `#<lambda>` for
closures, and the empty string for primitives (the `switch` has no
`Primitive` case).  A nil `*Value` would panic inside `fmt`, which recovers
and prints a placeholder; rendered here as `<nil>` (unreachable in the
claims). -/
def valueString : Value → String
  | .sexpVal s => sexpString s
  | .lambdaVal _ _ _ => "#<lambda>"
  | .primVal _ => ""
  | .nilPtr => "<nil>"

/-! ## Environments (`Env`) -/

/-- One `Env` record: the `vars` map (modelled as an association list with
insert-or-overwrite update) and the optional parent pointer (an index into
the store). -/
structure EnvData where
  vars : List (String × Value)
  parent : Option Nat

/-- The heap of environments.  Go's `*Env` pointers become indices; the Go
code only ever allocates (`NewEnv`, `newEnvWithParent`) and mutates in place
(`Env.Set`), which becomes appending to / updating this list. -/
abbrev Store := List EnvData

/-- Go map lookup `e.vars[symbol]`. -/
def lookupVars : List (String × Value) → String → Option Value
  | [], _ => none
  | (k, v) :: rest, sym => if k = sym then some v else lookupVars rest sym

/-- Go map assignment `e.vars[symbol] = value` (insert-or-overwrite). -/
def varsSet : List (String × Value) → String → Value → List (String × Value)
  | [], sym, v => [(sym, v)]
  | (k, w) :: rest, sym, v =>
    if k = sym then (sym, v) :: rest else (k, w) :: varsSet rest sym v

/-- `Env.Set`: writes into this environment's own table, never an
ancestor's.  (An out-of-range index cannot arise from the Go code; the store
is returned unchanged there.) -/
def envSet (st : Store) (e : Nat) (sym : String) (v : Value) : Store :=
  match st.get? e with
  | some d => st.set e ⟨varsSet d.vars sym v, d.parent⟩
  | none => st

/-- One step of `Env.Lookup`: consult the cursor's own table first
(first-found wins); fall back to the continuation `k` on the parent index,
or fail at the root. -/
def envStep (cursor : Option EnvData) (sym : String) (k : Nat → Option Value) :
    Option Value :=
  match cursor with
  | none => none
  | some d =>
    match lookupVars d.vars sym with
    | some v => some v
    | none =>
      match d.parent with
      | some p => k p
      | none => none

/-- `Env.Lookup`: walk the chain from `e` outward via parent pointers; first
binding found wins; `none` once the root is passed.  `fuel` bounds the walk
(the Go chain is acyclic by construction: a parent always exists before its
child, so `st.length` fuel always suffices for stores built by the code). -/
def envLookup : Nat → Store → Nat → String → Option Value
  | 0, _, _, _ => none
  | f + 1, st, e, sym => envStep (st.get? e) sym fun p => envLookup f st p sym

/-- `newEnvWithParent`: allocate an empty environment whose parent is `e`;
returns the new store and the new environment's index. -/
def allocEnv (st : Store) (e : Nat) : Store × Nat :=
  (st ++ [⟨[], some e⟩], st.length)

/-! ## The `add` primitive (`NewEnv`) -/

/-- Two's-complement wraparound of Go 64-bit `int` arithmetic. -/
def wrap64 (n : Int) : Int := (n + 2 ^ 63) % 2 ^ 64 - 2 ^ 63

/-- Outcome of one evaluation: a value, an `error` return, or a Go runtime
panic (which crashes the process — no `recover` exists in the program). -/
inductive Outcome where
  | ok (v : Value)
  | err (msg : String)
  | panicked (msg : String)

/-- The Go runtime's nil-pointer-dereference panic message. -/
def nilDerefMsg : String :=
  "runtime error: invalid memory address or nil pointer dereference"

/-- Reading one argument through the promoted `AsInt`: a nil embedded
pointer panics, a non-integer s-expression yields the caller-supplied error
outcome, an integer continues with `k`. -/
def intArgStep (r : Option (Option Int)) (onBad : Outcome) (k : Int → Outcome) :
    Outcome :=
  match r with
  | none => .panicked nilDerefMsg
  | some none => onBad
  | some (some x) => k x

/-- The loop body of the `add` primitive registered in `NewEnv`: running
index `i`, running sum `sum`; each argument is read with the promoted
`AsInt` (nil-dereference panic on closure/primitive arguments), a non-integer
s-expression produces the positional type error, and the sum accumulates
with 64-bit wraparound (`sum += x` on Go `int`). -/
def addLoop : List Value → Nat → Int → Outcome
  | [], _, sum => .ok (.sexpVal (.int sum))
  | v :: rest, i, sum =>
    intArgStep v.asIntGo
      (.err ("add argument[" ++ natRepr i ++ "] is not int: " ++ valueString v))
      fun x => addLoop rest (i + 1) (wrap64 (sum + x))

/-- The `add` primitive applied to its fully evaluated argument list. -/
def addPrim (args : List Value) : Outcome := addLoop args 0 0

/-- Dispatch of a `PrimitiveFunc` value; only `add` is ever registered. -/
def applyPrim : Prim → List Value → Outcome
  | .add, args => addPrim args

/-! ## Evaluation (`ast.Eval`)

The Go code's ubiquitous `if err != nil { return nil, err }` step after a
recursive `Eval` call is factored into explicit continuation combinators
(`okStep` and friends); each propagates fuel exhaustion, errors, and panics
and hands a successful value to the continuation. -/

/-- Propagate error/panic/fuel-exhaustion; continue with store and value. -/
def okStep (r : Option (Store × Outcome))
    (k : Store → Value → Option (Store × Outcome)) : Option (Store × Outcome) :=
  match r with
  | none => none
  | some (st, .ok v) => k st v
  | some (st, o) => some (st, o)

/-- As `okStep`, inside the parameter-binding loop: an error or panic
becomes the loop's early `return` (`some o`). -/
def bindStep (r : Option (Store × Outcome))
    (k : Store → Value → Option (Store × Option Outcome)) :
    Option (Store × Option Outcome) :=
  match r with
  | none => none
  | some (st, .ok v) => k st v
  | some (st, o) => some (st, some o)

/-- Resume after the parameter-binding loop: an early return is the
application's result, otherwise evaluation proceeds with the body. -/
def bindResult (r : Option (Store × Option Outcome))
    (k : Store → Option (Store × Outcome)) : Option (Store × Outcome) :=
  match r with
  | none => none
  | some (st, some o) => some (st, o)
  | some (st, none) => k st

/-- As `okStep`, inside the primitive-argument loop. -/
def collectStep (r : Option (Store × Outcome))
    (k : Store → Value → Option (Store × (List Value ⊕ Outcome))) :
    Option (Store × (List Value ⊕ Outcome)) :=
  match r with
  | none => none
  | some (st, .ok v) => k st v
  | some (st, o) => some (st, .inr o)

/-- Resume after the primitive-argument loop with the collected values. -/
def collectResult (r : Option (Store × (List Value ⊕ Outcome)))
    (k : Store → List Value → Option (Store × Outcome)) :
    Option (Store × Outcome) :=
  match r with
  | none => none
  | some (st, .inr o) => some (st, o)
  | some (st, .inl vs) => k st vs

/-- `lookupAST.Eval`'s two cases: the found value, or the
`undefined variable` error naming the symbol. -/
def lookupOutcome (sym : String) (r : Option Value) : Outcome :=
  match r with
  | some v => .ok v
  | none => .err ("undefined variable " ++ sym)

mutual

/-- `ast.Eval(e)` for each AST variant, mirroring `evaluator.go`:
`literalAST`, `lookupAST` (`undefined variable` error), `ifAST` (promoted
`IsNil` on the condition, dispatched by `evalCondBranch` — panics for
closure conditions), `setAST` (writes into the current environment, returns
the value), `lambdaAST` (allocates a fresh child of the current environment
and captures it — body unevaluated), and `applicationAST` (function position
first, then `evalApply` dispatches on the resulting value's tag). -/
def evalAST : Nat → AST → Store → Nat → Option (Store × Outcome)
  | 0, _, _, _ => none
  | _ + 1, .literal v, st, _ => some (st, .ok v)
  | _ + 1, .lookupA sym, st, e =>
    some (st, lookupOutcome sym (envLookup st.length st e sym))
  | f + 1, .ifA c t el, st, e =>
    okStep (evalAST f c st e) fun st1 v => evalCondBranch f v.isNilGo t el st1 e
  | f + 1, .setA sym va, st, e =>
    okStep (evalAST f va st e) fun st1 v => some (envSet st1 e sym v, .ok v)
  | _ + 1, .lambdaA syms body, st, e =>
    some (st ++ [⟨[], some e⟩], .ok (.lambdaVal syms body st.length))
  | f + 1, .appA fA argAs, st, e =>
    okStep (evalAST f fA st e) fun st1 fv => evalApply f fv argAs st1 e

termination_by structural f => f

/-- The branch dispatch of `ifAST.Eval` on `condValue.IsNil()`: a nil
condition evaluates the else branch, anything else the then branch, and a
condition value with no embedded s-expression (closure/primitive/nil
pointer) is a nil-pointer-dereference panic. -/
def evalCondBranch : Nat → Option Bool → AST → AST → Store → Nat →
    Option (Store × Outcome)
  | 0, _, _, _, _, _ => none
  | _ + 1, none, _, _, st, _ => some (st, .panicked nilDerefMsg)
  | f + 1, some true, _, el, st, e => evalAST f el st e
  | f + 1, some false, t, _, st, e => evalAST f t st e

termination_by structural f => f

/-- The dispatch of `applicationAST.Eval` on the function value's tag,
together with `EvalLambdaApplication` (arity check against the parameter
count, then the bind loop into the captured environment `envId`, then the
body sequence in that same environment) and `EvalPrimitiveApplication`
(collect all argument values, then invoke the primitive).  A non-callable
s-expression is the `Unsupported application function` error; a nil `*Value`
in function position would panic.  (The Go arity error renders the
`LambdaValue` with `%+v`, which prints internal pointer addresses; the model
renders it as `lambda`.) -/
def evalApply : Nat → Value → List AST → Store → Nat → Option (Store × Outcome)
  | 0, _, _, _, _ => none
  | f + 1, .lambdaVal params body envId, argAs, st, e =>
    if params.length = argAs.length then
      bindResult (evalBindArgs f params argAs st e envId) fun st2 =>
        evalSeq f body st2 envId
    else
      some (st, .err ("lambda requires " ++ natRepr params.length ++
        " arguments, but got " ++ natRepr argAs.length))
  | f + 1, .primVal p, argAs, st, e =>
    collectResult (evalArgsCollect f argAs st e []) fun st2 vs =>
      some (st2, applyPrim p vs)
  | _ + 1, .sexpVal s, _, st, _ =>
    some (st, .err ("Unsupported application function: " ++ sexpString s))
  | _ + 1, .nilPtr, _, st, _ => some (st, .panicked nilDerefMsg)

termination_by structural f => f

/-- The argument loop of `EvalLambdaApplication`: each argument AST is
evaluated in the caller's environment `e` and the parameter is immediately
bound (`applicationEnv.Set`) in the closure's captured environment `appEnv`;
the first error or panic stops the loop, leaving earlier bindings in place.
`some (st, none)` means all parameters were bound. -/
def evalBindArgs : Nat → List String → List AST → Store → Nat → Nat →
    Option (Store × Option Outcome)
  | 0, _, _, _, _, _ => none
  | _ + 1, [], _, st, _, _ => some (st, none)
  | _ + 1, _ :: _, [], st, _, _ => some (st, none)
  | f + 1, p :: ps, a :: as, st, e, appEnv =>
    bindStep (evalAST f a st e) fun st1 v =>
      evalBindArgs f ps as (envSet st1 appEnv p v) e appEnv

termination_by structural f => f

/-- The body loop of `EvalLambdaApplication`: evaluate the body ASTs in
order in the application environment, returning the last value (a Go nil
`*Value` — `nilPtr` — when the body list is empty, which `makeLambdaAST`
never produces). -/
def evalSeq : Nat → List AST → Store → Nat → Option (Store × Outcome)
  | 0, _, _, _ => none
  | _ + 1, [], st, _ => some (st, .ok .nilPtr)
  | f + 1, [a], st, e => evalAST f a st e
  | f + 1, a :: b :: rest, st, e =>
    okStep (evalAST f a st e) fun st1 _ => evalSeq f (b :: rest) st1 e

termination_by structural f => f

/-- The argument loop of `EvalPrimitiveApplication`: evaluate every argument
in the caller's environment, collecting the values in order; the first error
or panic aborts. -/
def evalArgsCollect : Nat → List AST → Store → Nat → List Value →
    Option (Store × (List Value ⊕ Outcome))
  | 0, _, _, _, _ => none
  | _ + 1, [], st, _, acc => some (st, .inl acc)
  | f + 1, a :: rest, st, e, acc =>
    collectStep (evalAST f a st e) fun st1 v =>
      evalArgsCollect f rest st1 e (acc ++ [v])


termination_by structural f => f
end

/-! ## AST compilation (`makeAST` and the special-form builders) -/

/-- Map `AsSymbol` over a parameter list (the inner loop of
`makeLambdaAST`); `none` as soon as an element is not a symbol. -/
def symbolsOf : List SExp → Option (List String)
  | [] => some []
  | .symbol s :: rest => (symbolsOf rest).map (s :: ·)
  | _ :: _ => none

/-- Propagate fuel exhaustion and compile errors; continue with the compiled
result (the `if err != nil { return nil, err }` step after a recursive
`makeAST` call). -/
def compStep {α β : Type} (r : Option (Except String α))
    (k : α → Option (Except String β)) : Option (Except String β) :=
  match r with
  | none => none
  | some (.error m) => some (.error m)
  | some (.ok a) => k a

/-- The `if !ok { return nil, fmt.Errorf(...) }` step after an `AsSymbol` /
`AsList` style accessor: fail with the given compile error, or continue. -/
def requireSome {α : Type} (msg : String) (r : Option α)
    (k : α → Option (Except String AST)) : Option (Except String AST) :=
  match r with
  | none => some (.error msg)
  | some x => k x

mutual

/-- `makeAST`: literals compile to `literalAST`, lists via
`makeASTFromList`, symbols to `lookupAST`.  `none` is fuel exhaustion (the
Go recursion is bounded by the tree depth); the `Except` layer carries the
compile errors. -/
def makeAST : Nat → SExp → Option (Except String AST)
  | 0, _ => none
  | _ + 1, .str s => some (.ok (.literal (.sexpVal (.str s))))
  | _ + 1, .int n => some (.ok (.literal (.sexpVal (.int n))))
  | f + 1, .list xs => makeASTFromList f xs
  | _ + 1, .symbol s => some (.ok (.lookupA s))

termination_by structural f => f

/-- `makeASTFromList`: the empty list compiles to a nil literal; otherwise
dispatch on whether the head is a special-form symbol. -/
def makeASTFromList : Nat → List SExp → Option (Except String AST)
  | 0, _ => none
  | _ + 1, [] => some (.ok (.literal nilValue))
  | f + 1, first :: rest => makeFormDispatch f first.asSymbol (first :: rest)

termination_by structural f => f

/-- The `switch symbol` of `makeASTFromList`: a head symbol naming a
reserved special form selects the dedicated builder; anything else —
including non-symbol heads — compiles as an application. -/
def makeFormDispatch : Nat → Option String → List SExp → Option (Except String AST)
  | 0, _, _ => none
  | f + 1, some "if", sexps => makeIfAST f sexps
  | f + 1, some "set", sexps => makeSetAST f sexps
  | f + 1, some "quote", sexps => makeQuoteAST f sexps
  | f + 1, some "lambda", sexps => makeLambdaAST f sexps
  | f + 1, _, sexps => makeApplicationAST f sexps

termination_by structural f => f

/-- `makeIfAST`: 3 or 4 elements required, checked before anything is
compiled; the else branch defaults to a nil literal when omitted.  The Go
code compiles else, then the then branch, then the condition (order only
matters for which compile error surfaces first). -/
def makeIfAST : Nat → List SExp → Option (Except String AST)
  | 0, _ => none
  | f + 1, [_q, c, t] =>
    compStep (makeAST f t) fun thenA =>
      compStep (makeAST f c) fun condA =>
        some (.ok (.ifA condA thenA (.literal nilValue)))
  | f + 1, [_q, c, t, e] =>
    compStep (makeAST f e) fun elseA =>
      compStep (makeAST f t) fun thenA =>
        compStep (makeAST f c) fun condA =>
          some (.ok (.ifA condA thenA elseA))
  | _ + 1, sexps =>
    some (.error ("if requires 2 or 3 args: " ++ sexpsSliceStr sexps))

termination_by structural f => f

/-- `makeSetAST`: exactly 3 elements, the first argument a symbol. -/
def makeSetAST : Nat → List SExp → Option (Except String AST)
  | 0, _ => none
  | f + 1, [q, s, e] =>
    requireSome ("1st argument to set must be a symbol: " ++ sexpsSliceStr [q, s, e])
      s.asSymbol fun sym =>
        compStep (makeAST f e) fun valueA => some (.ok (.setA sym valueA))
  | _ + 1, sexps =>
    some (.error ("set requires 2 args: " ++ sexpsSliceStr sexps))

termination_by structural f => f

/-- `makeQuoteAST`: exactly 2 elements; the argument is wrapped verbatim,
uncompiled. -/
def makeQuoteAST : Nat → List SExp → Option (Except String AST)
  | 0, _ => none
  | _ + 1, [_, x] => some (.ok (.literal (.sexpVal x)))
  | _ + 1, sexps =>
    some (.error ("quote requires 1 arg: " ++ sexpsSliceStr sexps))

/-- `makeLambdaAST`: at least 3 elements; the first argument a list of
symbols; the remaining elements compile to the body AST list. -/
def makeLambdaAST : Nat → List SExp → Option (Except String AST)
  | 0, _ => none
  | f + 1, q :: params :: b :: body =>
    requireSome ("1st argument to lambda must be a list of symbols: " ++
        sexpsSliceStr (q :: params :: b :: body))
      params.asList fun args =>
        requireSome ("1st argument to lambda must be a list of symbols: " ++
            sexpsSliceStr (q :: params :: b :: body))
          (symbolsOf args) fun syms =>
            compStep (makeASTList f (b :: body)) fun bodyASTs =>
              some (.ok (.lambdaA syms bodyASTs))
  | _ + 1, sexps =>
    some (.error ("lambda requires at least 2 arguments: " ++ sexpsSliceStr sexps))

termination_by structural f => f

/-- `makeApplicationAST`: head compiles to the function AST, remaining
elements to argument ASTs, in order.  (The zero-length branch is
unreachable from `makeASTFromList`.) -/
def makeApplicationAST : Nat → List SExp → Option (Except String AST)
  | 0, _ => none
  | _ + 1, [] =>
    some (.error ("function application requires at least 1 argument: " ++
      sexpsSliceStr []))
  | f + 1, first :: rest =>
    compStep (makeAST f first) fun fnA =>
      compStep (makeASTList f rest) fun argAs =>
        some (.ok (.appA fnA argAs))

termination_by structural f => f

/-- Compile a list of s-expressions in order, stopping at the first
error (the argument/body loops of `makeApplicationAST` and
`makeLambdaAST`). -/
def makeASTList : Nat → List SExp → Option (Except String (List AST))
  | 0, _ => none
  | _ + 1, [] => some (.ok [])
  | f + 1, x :: rest =>
    compStep (makeAST f x) fun a =>
      compStep (makeASTList f rest) fun as => some (.ok (a :: as))


termination_by structural f => f
end

/-! ## Sessions (`NewEnv`, `Env.Eval`, the `main` loop) -/

/-- `NewEnv`: the root environment pre-populated with `nil` and the `add`
primitive; the fresh store holds exactly this environment at index 0. -/
def newEnvStore : Store := [⟨[("nil", nilValue), ("add", .primVal .add)], none⟩]

/-- `Env.Eval`: compile the s-expression, wrapping a compile error as
`makeAst(<sexp>): <err>` without touching the store, then evaluate the
compiled AST. -/
def envEval (fuel : Nat) (s : SExp) (st : Store) (e : Nat) :
    Option (Store × Outcome) :=
  match makeAST fuel s with
  | none => none
  | some (.error m) => some (st, .err ("makeAst(" ++ sexpString s ++ "): " ++ m))
  | some (.ok a) => evalAST fuel a st e

/-- One step of the `main` loop: a panic crashes the process (no further
expressions run); a value or error is printed and the session continues
via `k`. -/
def sessionStep (r : Option (Store × Outcome))
    (k : Store → Outcome → Option (Store × List Outcome)) :
    Option (Store × List Outcome) :=
  match r with
  | none => none
  | some (st, .panicked m) => some (st, [.panicked m])
  | some (st, o) => k st o

/-- The expression loop of `main`: each parsed expression is evaluated
against the same persistent environment; an evaluation error is printed and
the loop continues with the next expression, while a panic crashes the
process. -/
def evalTop (fuel : Nat) : List SExp → Store → Nat → Option (Store × List Outcome)
  | [], st, _ => some (st, [])
  | s :: rest, st, e =>
    sessionStep (envEval fuel s st e) fun st1 o =>
      (evalTop fuel rest st1 e).map fun r => (r.1, o :: r.2)

/-- Run a program (list of top-level expressions) from a fresh session. -/
def runProg (fuel : Nat) (prog : List SExp) : Option (Store × List Outcome) :=
  evalTop fuel prog newEnvStore 0

/-- The outcomes of a fresh-session run. -/
def progOutcomes (fuel : Nat) (prog : List SExp) : Option (List Outcome) :=
  (runProg fuel prog).map Prod.snd

/-- The last outcome of a fresh-session run. -/
def lastOutcome (fuel : Nat) (prog : List SExp) : Option Outcome :=
  (progOutcomes fuel prog).bind List.getLast?

/-! ## Tokenizer (`tokenizer.go`)

Each Go sub-tokenizer is an anchored regular expression (`FindIndex`
followed by a start-at-0 check, which is equivalent to anchored matching);
the six regexps below are simple enough that greedy leftmost-first matching
is deterministic, and each is modelled by a direct functional scanner. -/

/-- The six token kinds, in the order of the Go `Type` constants. -/
inductive TokenType where
  | space
  | openParen
  | closeParen
  | symbol
  | stringLiteral
  | numberLiteral
deriving DecidableEq

/-- A token: its kind and the consumed substring (as a character list). -/
structure Token where
  typ : TokenType
  str : List Char
deriving DecidableEq

/-- Go `%v` of the integer-valued `tokenizer.Type` constants. -/
def tokenTypeStr : TokenType → String
  | .space => "0"
  | .openParen => "1"
  | .closeParen => "2"
  | .symbol => "3"
  | .stringLiteral => "4"
  | .numberLiteral => "5"

/-- `Token.String`: `<%s>` around the consumed substring. -/
def tokenStr (t : Token) : String := "<" ++ String.mk t.str ++ ">"

/-- Space-joined token renderings. -/
def tokensStrList : List Token → String
  | [] => ""
  | [t] => tokenStr t
  | t :: u :: rest => tokenStr t ++ " " ++ tokensStrList (u :: rest)

/-- Go `%v` of a `[]*tokenizer.Token` slice. -/
def tokensStr (ts : List Token) : String := "[" ++ tokensStrList ts ++ "]"

/-- RE2 `\s`: space, tab, newline, form feed, carriage return. -/
def isGoSpace (c : Char) : Bool :=
  c == ' ' || c == '\t' || c == '\n' || c == '\x0c' || c == '\r'

/-- `[a-zA-Z]`. -/
def isGoAlpha (c : Char) : Bool :=
  (65 ≤ c.toNat && c.toNat ≤ 90) || (97 ≤ c.toNat && c.toNat ≤ 122)

/-- `[a-zA-Z_]` (the tail characters of a symbol). -/
def isSymbolTail (c : Char) : Bool := isGoAlpha c || c == '_'

/-- `[0-9]`. -/
def isDigitChar (c : Char) : Bool := 48 ≤ c.toNat && c.toNat ≤ 57

/-- `[1-9]` (the leading character of a number literal). -/
def isDigit19 (c : Char) : Bool := 49 ≤ c.toNat && c.toNat ≤ 57

/-- The regexp `\s+` anchored: the (nonempty) whitespace prefix. -/
def tokSpace (s : List Char) : Option (Token × List Char) :=
  match s.takeWhile isGoSpace with
  | [] => none
  | c :: cs => some (⟨.space, c :: cs⟩, s.dropWhile isGoSpace)

/-- The regexp `\(` anchored. -/
def tokOpenParen : List Char → Option (Token × List Char)
  | [] => none
  | c :: rest => if c = '(' then some (⟨.openParen, ['(']⟩, rest) else none

/-- The regexp `\)` anchored. -/
def tokCloseParen : List Char → Option (Token × List Char)
  | [] => none
  | c :: rest => if c = ')' then some (⟨.closeParen, [')']⟩, rest) else none

/-- The regexp `[a-zA-Z][a-zA-Z_]*` anchored, greedy. -/
def tokSymbol : List Char → Option (Token × List Char)
  | [] => none
  | c :: rest =>
    if isGoAlpha c then
      some (⟨.symbol, c :: rest.takeWhile isSymbolTail⟩, rest.dropWhile isSymbolTail)
    else none

/-- The body scanner of the regexp `"([^"\\]|\\"|\\\\)*"` after the opening
quote: the three alternatives are disjoint on their first character, so the
greedy match is deterministic — a bare quote closes the literal, a backslash
must be followed by a quote or a backslash (both kept verbatim), anything
else is consumed verbatim; returns the consumed body and the remainder
after the closing quote. -/
def strLitScan : List Char → Option (List Char × List Char)
  | [] => none
  | [c] => if c = '"' then some ([], []) else none
  | c :: c2 :: rest =>
    if c = '"' then some ([], c2 :: rest)
    else if c = '\\' then
      if c2 = '"' ∨ c2 = '\\' then
        (strLitScan rest).map fun r => (c :: c2 :: r.1, r.2)
      else none
    else (strLitScan (c2 :: rest)).map fun r => (c :: r.1, r.2)

/-- The regexp `"([^"\\]|\\"|\\\\)*"` anchored. -/
def tokStringLiteral : List Char → Option (Token × List Char)
  | [] => none
  | c :: rest =>
    if c = '"' then
      (strLitScan rest).map fun r => (⟨.stringLiteral, '"' :: (r.1 ++ ['"'])⟩, r.2)
    else none

/-- The regexp `[1-9][0-9]*` anchored, greedy.  Note `0` on its own — and
any leading-zero or signed decimal — is not a number literal. -/
def tokNumberLiteral : List Char → Option (Token × List Char)
  | [] => none
  | c :: rest =>
    if isDigit19 c then
      some (⟨.numberLiteral, c :: rest.takeWhile isDigitChar⟩, rest.dropWhile isDigitChar)
    else none

/-- `tokenize1`: the sub-tokenizers tried in registration order; the first
success wins. -/
def tokenize1 (s : List Char) : Option (Token × List Char) :=
  match tokSpace s with
  | some r => some r
  | none =>
    match tokOpenParen s with
    | some r => some r
    | none =>
      match tokCloseParen s with
      | some r => some r
      | none =>
        match tokSymbol s with
        | some r => some r
        | none =>
          match tokStringLiteral s with
          | some r => some r
          | none => tokNumberLiteral s

/-- The failure/success step of the `Tokenize` loop. -/
def tokStep (r : Option (Token × List Char)) (failMsg : String)
    (k : Token → List Char → Except String (List Token)) :
    Except String (List Token) :=
  match r with
  | none => .error failMsg
  | some (t, rest) => k t rest

/-- The `Tokenize` loop: scan one token, check that at least one character
was consumed, and continue; `fuel` is the input length, which always
suffices because of that very check. -/
def tokenizeLoop : Nat → List Char → Except String (List Token)
  | _, [] => .ok []
  | 0, s => .error ("tokenize out of fuel at " ++ String.mk s)
  | f + 1, s =>
    tokStep (tokenize1 s) ("tokenize failed at " ++ String.mk s) fun t rest =>
      if s.length ≤ rest.length then
        .error ("tokenizers must consume at least 1 character: current head: " ++
          String.mk s)
      else (tokenizeLoop f rest).map (t :: ·)

/-- `tokenizer.Tokenize`. -/
def tokenizeAll (s : String) : Except String (List Token) :=
  tokenizeLoop s.length s.data

/-! ## Parser (`parser.go`, the `sexpressions`-based version) -/

/-- Error/success propagation for parser results (the Go
`if err != nil { return ... }` step). -/
def exceptStep {α β : Type} (r : Except String α) (k : α → Except String β) :
    Except String β :=
  match r with
  | .error m => .error m
  | .ok a => k a

/-- `consume`: the head token must have the given kind. -/
def consume (tt : TokenType) (tokens : List Token) : Except String (List Token) :=
  match tokens with
  | [] => .error ("unexpected end of tokens while expecting token " ++ tokenTypeStr tt)
  | t :: rest =>
    if t.typ = tt then .ok rest
    else
      .error ("got unexpected token " ++ tokenTypeStr t.typ ++
        " while expecting token " ++ tokenTypeStr tt ++ " at " ++ tokensStr (t :: rest))

/-- `consumeIf`: try to consume; on failure return the tokens unchanged. -/
def consumeIf (tt : TokenType) (tokens : List Token) : List Token × Bool :=
  match tokens with
  | [] => (tokens, false)
  | t :: rest => if t.typ = tt then (rest, true) else (t :: rest, false)

/-- Go `strconv` digit accumulation for a decimal numeral. -/
def parseDigitsAcc : Nat → List Char → Nat
  | acc, [] => acc
  | acc, c :: rest => parseDigitsAcc (acc * 10 + (c.toNat - 48)) rest

/-- Modelled from the Go standard library: `strconv.ParseInt(s, 10, 64)` on
the digit-only strings produced by the `NumberLiteral` regexp — the decimal
value, or `none` when it overflows a signed 64-bit integer. -/
def parseInt64 (cs : List Char) : Option Int :=
  if parseDigitsAcc 0 cs < 2 ^ 63 then some (Int.ofNat (parseDigitsAcc 0 cs)) else none

/-- The `NumberLiteral` case of `parse1`. -/
def parseIntTok (cs : List Char) (rest : List Token) :
    Except String (SExp × List Token) :=
  match parseInt64 cs with
  | none => .error ("failed to parse token <" ++ String.mk cs ++ "> as int")
  | some n => .ok (.int n, rest)

/-- `Str[1 : len(Str)-1]`: strip the surrounding quotes of a string-literal
token; no escape processing happens (the `TODO` in the source). -/
def stripEnds (cs : List Char) : List Char := (cs.drop 1).dropLast

/-- The always-failing branch taken when a required separating space is
missing inside a list: `consume(Space, rest)` is re-run purely for its
error.  (Its success case is unreachable: the head is known not to be a
space; Go would return a nil s-expression and nil error there.) -/
def spaceErr (r : Except String (List Token)) : Except String (SExp × List Token) :=
  match r with
  | .error m => .error m
  | .ok _ => .error "unreachable: head token is a space"

mutual

/-- `parse1`: dispatch on the head token — `(` opens a list, a symbol /
string literal / number literal becomes the corresponding leaf (the string
literal merely stripped of its quotes, never unescaped), and a space or
`)` here is the `unexpected token` error.  (Go indexes `tokens[0]`, so an
empty token list would panic; that call is unreachable from `Parse` and
from the list loop.) -/
def parse1 : Nat → List Token → Except String (SExp × List Token)
  | 0, _ => .error "parser out of fuel"
  | _ + 1, [] => .error "panic: runtime error: index out of range"
  | f + 1, ⟨.openParen, cs⟩ :: rest => parseList f (⟨.openParen, cs⟩ :: rest)
  | _ + 1, ⟨.symbol, cs⟩ :: rest => .ok (.symbol (String.mk cs), rest)
  | _ + 1, ⟨.stringLiteral, cs⟩ :: rest => .ok (.str (String.mk (stripEnds cs)), rest)
  | _ + 1, ⟨.numberLiteral, cs⟩ :: rest => parseIntTok cs rest
  | _ + 1, ts => .error ("unexpected token at " ++ tokensStr ts)
termination_by structural f => f

/-- `parseList`: consume the opening parenthesis, then run the element
loop. -/
def parseList : Nat → List Token → Except String (SExp × List Token)
  | 0, _ => .error "parser out of fuel"
  | f + 1, tokens =>
    exceptStep (consume .openParen tokens) fun rest =>
      parseListLoop f false [] rest tokens
termination_by structural f => f

/-- The element loop of `parseList`: skip one optional space, close on `)`,
demand a separating space between consecutive elements, parse the next
element, and loop; running out of tokens is the `unmatched parens` error
(naming the original token list). -/
def parseListLoop : Nat → Bool → List SExp → List Token → List Token →
    Except String (SExp × List Token)
  | 0, _, _, _, _ => .error "parser out of fuel"
  | _ + 1, _, _, [], orig => .error ("unmatched parens: tokens: " ++ tokensStr orig)
  | f + 1, needSpace, acc, t :: rest0, orig =>
    let r1 := consumeIf .space (t :: rest0)
    let r2 := consumeIf .closeParen r1.1
    if r2.2 then .ok (.list acc, r2.1)
    else if needSpace && !r1.2 then spaceErr (consume .space r1.1)
    else
      exceptStep (parse1 f r1.1) fun r =>
        parseListLoop f true (acc ++ [r.1]) r.2 orig
termination_by structural f => f

end

mutual

/-- The loop of `Parse`: between two top-level expressions exactly one
space token is required; each expression must consume at least one token
(the defensive no-progress check). -/
def parseLoop : Nat → Bool → List SExp → List Token → Except String (List SExp)
  | 0, _, _, _ => .error "parser out of fuel"
  | _ + 1, _, acc, [] => .ok acc
  | f + 1, true, acc, t :: rest =>
    exceptStep (consume .space (t :: rest)) fun rest1 => parseStep f acc rest1
  | f + 1, false, acc, t :: rest => parseStep f acc (t :: rest)
termination_by structural f => f

/-- One iteration of the `Parse` loop after the space handling: parse one
expression and append it.  (The Go message for the no-progress defect reads
`parse1 didn't consume any token`; the apostrophe is elided here.) -/
def parseStep : Nat → List SExp → List Token → Except String (List SExp)
  | 0, _, _ => .error "parser out of fuel"
  | f + 1, acc, ts =>
    exceptStep (parse1 f ts) fun r =>
      if ts.length = r.2.length then
        .error ("parse1 did not consume any token. tokens: " ++ tokensStr ts)
      else parseLoop f true (acc ++ [r.1]) r.2
termination_by structural f => f

end

/-- `parser.Parse`, with fuel proportional to the token count (ample: every
recursion layer either consumes a token or moves to a sub-element). -/
def goParse (tokens : List Token) : Except String (List SExp) :=
  parseLoop (4 * tokens.length + 4) false [] tokens

/-- The lexer-and-reader front end applied to one line of text. -/
def readLine (s : String) : Except String (List SExp) :=
  exceptStep (tokenizeAll s) fun tokens => goParse tokens

/-- Render a runtime-value s-expression and push it back through the lexer
and the reader: the round-trip of C8. -/
def renderReparse (v : SExp) : Except String (List SExp) :=
  readLine (sexpString v)

/-- The characters whose `%q` rendering is themselves: printable ASCII
other than the double quote and the backslash. -/
def safeChar (c : Char) : Bool :=
  32 ≤ c.toNat && c.toNat ≤ 126 && c != '"' && c != '\\'

/-! ## Concrete scenario programs -/

/-- `((lambda (x) (set x 9) x) 5)`: multi-expression body, applied with a
matching argument count. -/
def progBodyOrder : List SExp :=
  [ .list [.list [.symbol "lambda", .list [.symbol "x"],
      .list [.symbol "set", .symbol "x", .int 9], .symbol "x"], .int 5] ]

/-- `(set f (lambda (x) (lambda () x)))`, `(set g (f 1))`, `(f 2)`, `(g)`:
distinguishes binding into the closure's one captured environment (where
`(g)` sees the re-bound `x = 2`) from per-call child environments (where
`(g)` would still see `1`). -/
def progSharedParamEnv : List SExp :=
  [ .list [.symbol "set", .symbol "f", .list [.symbol "lambda",
      .list [.symbol "x"], .list [.symbol "lambda", .list [], .symbol "x"]]]
  , .list [.symbol "set", .symbol "g", .list [.symbol "f", .int 1]]
  , .list [.symbol "f", .int 2]
  , .list [.symbol "g"] ]

/-- The closure-capture scenario of the spec: `(set x 5)`,
`(set f (lambda () x))`, `(set x 9)`, `(f)`. -/
def progCapture : List SExp :=
  [ .list [.symbol "set", .symbol "x", .int 5]
  , .list [.symbol "set", .symbol "f", .list [.symbol "lambda", .list [], .symbol "x"]]
  , .list [.symbol "set", .symbol "x", .int 9]
  , .list [.symbol "f"] ]

/-- A lambda whose body would fail if evaluated at creation time:
`(set g (lambda () nosuch))`. -/
def progLambdaBodyUnevaluated : List SExp :=
  [ .list [.symbol "set", .symbol "g",
      .list [.symbol "lambda", .list [], .symbol "nosuch"]] ]

/-- Two closures created in the same scope, one mutating `x` in its body:
`(set x 5)`, `(set f (lambda () (set x 9)))`, `(set g (lambda () x))`,
`(f)`, `(g)`. -/
def progSiblings : List SExp :=
  [ .list [.symbol "set", .symbol "x", .int 5]
  , .list [.symbol "set", .symbol "f", .list [.symbol "lambda", .list [],
      .list [.symbol "set", .symbol "x", .int 9]]]
  , .list [.symbol "set", .symbol "g", .list [.symbol "lambda", .list [], .symbol "x"]]
  , .list [.symbol "f"]
  , .list [.symbol "g"] ]

/-- `progSiblings` followed by a top-level `(set x 7)` and another `(g)`:
mutation of the shared enclosing environment is visible to the closures. -/
def progSiblingsTopSet : List SExp :=
  progSiblings ++ [ .list [.symbol "set", .symbol "x", .int 7], .list [.symbol "g"] ]

/-- `(if nil 10 20)`. -/
def progIfNil : List SExp := [ .list [.symbol "if", .symbol "nil", .int 10, .int 20] ]

/-- `(if 0 10 20)`. -/
def progIfZero : List SExp := [ .list [.symbol "if", .int 0, .int 10, .int 20] ]

/-- `(if "" 10 20)`. -/
def progIfEmptyStr : List SExp := [ .list [.symbol "if", .str "", .int 10, .int 20] ]

/-- `(if (lambda () 1) 10 20)`: a closure in condition position. -/
def progIfClosureCond : List SExp :=
  [ .list [.symbol "if", .list [.symbol "lambda", .list [], .int 1], .int 10, .int 20] ]

/-- `(if nil (set a 1) (set b 2))` then `a` then `b`: only the taken
branch's side effect happens. -/
def progIfOneBranch : List SExp :=
  [ .list [.symbol "if", .symbol "nil",
      .list [.symbol "set", .symbol "a", .int 1],
      .list [.symbol "set", .symbol "b", .int 2]]
  , .symbol "a", .symbol "b" ]

/-- `(if (set x 1))` — a malformed 2-element `if` whose condition has a
side effect — followed by `x`. -/
def progIfMalformed : List SExp :=
  [ .list [.symbol "if", .list [.symbol "set", .symbol "x", .int 1]], .symbol "x" ]

/-- `(add (set x 1) nosuch)` then `x`: the first argument's `set` has
executed when the second argument fails. -/
def progErrNoRollback : List SExp :=
  [ .list [.symbol "add", .list [.symbol "set", .symbol "x", .int 1], .symbol "nosuch"]
  , .symbol "x" ]

/-- `(set f (lambda (a b) a))` then `(f 2 nosuch)`: the first parameter is
bound into the closure's environment before the second argument fails. -/
def progArgBindThenFail : List SExp :=
  [ .list [.symbol "set", .symbol "f",
      .list [.symbol "lambda", .list [.symbol "a", .symbol "b"], .symbol "a"]]
  , .list [.symbol "f", .int 2, .symbol "nosuch"] ]

/-- A fresh session store extended with one empty child of the root — the
shape produced by evaluating a single lambda expression at top level. -/
def oneChildStore : Store := newEnvStore ++ [⟨[], some 0⟩]

/-- A two-environment chain for lookup demonstrations: a root binding `x`
and a child (parent index 0) binding `y`. -/
def chainStore : Store :=
  [⟨[("x", nilValue)], none⟩, ⟨[("y", .sexpVal (.int 1))], some 0⟩]

/-! ## Theorems -/

/-- C10: applying the `add` primitive to zero arguments succeeds and returns
the integer `0` (the loop body never runs, so no argument is type-checked and
the initial `sum := 0` is returned); the same holds for the full pipeline on
the program `(add)`. -/
theorem claim10_add_empty :
    addPrim [] = .ok (.sexpVal (.int 0)) ∧
    progOutcomes 100 [.list [.symbol "add"]] = some [.ok (.sexpVal (.int 0))] :=
  ⟨rfl, rfl⟩

/-- C3: a lambda expression allocates a fresh child of the current
environment, stores its index in the closure, and returns immediately
without evaluating the body (first conjunct, and the `nosuch` body compiles
and is captured unevaluated in the second); in the spec's capture scenario —
`(set x 5)`, `(set f (lambda () x))`, `(set x 9)`, `(f)` — the call `(f)`
resolves the free `x` through the captured chain at call time and returns
`9`, not the creation-time `5` (third conjunct). -/
theorem claim3_closure_capture :
    (∀ (f : Nat) (syms : List String) (body : List AST) (st : Store) (e : Nat),
      evalAST (f + 1) (.lambdaA syms body) st e =
        some (st ++ [⟨[], some e⟩], .ok (.lambdaVal syms body st.length))) ∧
    progOutcomes 100 progLambdaBodyUnevaluated =
      some [.ok (.lambdaVal [] [.lookupA "nosuch"] 1)] ∧
    progOutcomes 100 progCapture =
      some [.ok (.sexpVal (.int 5)), .ok (.lambdaVal [] [.lookupA "x"] 1),
            .ok (.sexpVal (.int 9)), .ok (.sexpVal (.int 9))] :=
  ⟨fun _ _ _ _ _ => rfl, rfl, rfl⟩

/-- C4 counterexample: in a fresh session running `(set x 5)`,
`(set f (lambda () (set x 9)))`, `(set g (lambda () x))`, `(f)`, `(g)`, the
two closures created in the same lexical scope capture *different*
environment instances (store indices 1 and 2), and after `(f)` has executed
`(set x 9)` in its own captured environment, `(g)` still returns `5` — the
mutation is not visible to the sibling closure, contradicting both parts of
the claim (which predicts a shared instance and a result of `9`). -/
theorem claim4_counterexample :
    progOutcomes 100 progSiblings =
      some [.ok (.sexpVal (.int 5)),
            .ok (.lambdaVal [] [.setA "x" (.literal (.sexpVal (.int 9)))] 1),
            .ok (.lambdaVal [] [.lookupA "x"] 2),
            .ok (.sexpVal (.int 9)),
            .ok (.sexpVal (.int 5))] ∧
    (1 : Nat) ≠ 2 ∧
    Outcome.ok (.sexpVal (.int 5)) ≠ .ok (.sexpVal (.int 9)) := by
  refine ⟨rfl, by decide, by simp⟩

/-- C4 amended: each closure created in a lexical scope captures its own
fresh child environment; the children of closures from the same scope share
the enclosing environment as their parent (both parents are index 0 here).
A `set` run in one closure's body writes into that closure's own captured
environment and is invisible to the sibling (`(g)` returns `5` after `(f)`),
while a `set` executed in the shared enclosing environment is visible to
every closure through the parent chain (`(g)` returns `7` after the
top-level `(set x 7)`). -/
theorem claim4_amended :
    ((runProg 100 progSiblingsTopSet).map fun r =>
      ((r.1.get? 1).map EnvData.parent, (r.1.get? 2).map EnvData.parent)) =
      some (some (some 0), some (some 0)) ∧
    progOutcomes 100 progSiblingsTopSet =
      some [.ok (.sexpVal (.int 5)),
            .ok (.lambdaVal [] [.setA "x" (.literal (.sexpVal (.int 9)))] 1),
            .ok (.lambdaVal [] [.lookupA "x"] 2),
            .ok (.sexpVal (.int 9)),
            .ok (.sexpVal (.int 5)),
            .ok (.sexpVal (.int 7)),
            .ok (.sexpVal (.int 7))] :=
  ⟨rfl, rfl⟩

/-- C9: an evaluation error aborts only the current top-level expression —
the session loop goes on with the next expression from the mutated store,
wrapping the error unchanged (first conjunct, general); no rollback happens:
in `(add (set x 1) nosuch)` the `set` executed before the second argument
failed, and the follow-up expression `x` still sees `1` (second conjunct);
likewise a parameter bound into a closure's captured environment before a
later argument errors stays bound — after `(f 2 nosuch)` fails, the
closure's environment (index 1) still maps `a` to `2` (third and fourth
conjuncts). -/
theorem claim9_error_propagation :
    (∀ (fuel : Nat) (s : SExp) (rest : List SExp) (st : Store) (e : Nat)
        (st1 : Store) (m : String),
      envEval fuel s st e = some (st1, .err m) →
      evalTop fuel (s :: rest) st e =
        (evalTop fuel rest st1 e).map fun r => (r.1, .err m :: r.2)) ∧
    progOutcomes 100 progErrNoRollback =
      some [.err "undefined variable nosuch", .ok (.sexpVal (.int 1))] ∧
    progOutcomes 100 progArgBindThenFail =
      some [.ok (.lambdaVal ["a", "b"] [.lookupA "a"] 1),
            .err "undefined variable nosuch"] ∧
    ((runProg 100 progArgBindThenFail).bind fun r =>
      envLookup r.1.length r.1 1 "a") = some (.sexpVal (.int 2)) := by
  refine ⟨?_, rfl, rfl, rfl⟩
  intro fuel s rest st e st1 m h
  simp only [evalTop, h, sessionStep]

/-- C9 witness: the general conjunct applied to the unbound symbol `nosuch`
as a lone top-level expression in a fresh session. -/
theorem claim9_error_propagation_witness :
    evalTop 5 [.symbol "nosuch"] newEnvStore 0 =
      (evalTop 5 [] newEnvStore 0).map fun r =>
        (r.1, .err "undefined variable nosuch" :: r.2) :=
  claim9_error_propagation.1 5 (.symbol "nosuch") [] newEnvStore 0
    newEnvStore "undefined variable nosuch" rfl

/-- C1: an application first evaluates the function position and dispatches
on the value (first conjunct); on a closure with matching argument count the
parameters are bound by the bind loop into the environment index stored in
the closure — the same captured environment on every invocation, not a fresh
per-call child — and the body is then evaluated in sequence in that
environment, its last value returned (second conjunct); the bind loop
evaluates each argument in the caller's environment and writes the parameter
into the captured environment immediately (third conjunct).  Concretely:
`((lambda (x) (set x 9) x) 5)` returns `9` (bodies in order, last value
wins); in the `progSharedParamEnv` scenario the inner closure `g` created by
`(f 1)` reads `x = 2` after the later call `(f 2)` re-bound `x` in `f`'s one
captured environment — a fresh per-call child would have kept `1` — and that
binding is still present in environment 1 afterwards. -/
theorem claim1_lambda_application :
    (∀ (f : Nat) (fA : AST) (argAs : List AST) (st : Store) (e : Nat),
      evalAST (f + 1) (.appA fA argAs) st e =
        okStep (evalAST f fA st e) fun st1 fv => evalApply f fv argAs st1 e) ∧
    (∀ (f : Nat) (params : List String) (body : List AST) (envId : Nat)
        (argAs : List AST) (st st2 : Store) (e : Nat),
      params.length = argAs.length →
      evalBindArgs f params argAs st e envId = some (st2, none) →
      evalApply (f + 1) (.lambdaVal params body envId) argAs st e =
        evalSeq f body st2 envId) ∧
    (∀ (f : Nat) (p : String) (ps : List String) (a : AST) (tl : List AST)
        (st : Store) (e appEnv : Nat),
      evalBindArgs (f + 1) (p :: ps) (a :: tl) st e appEnv =
        bindStep (evalAST f a st e) fun st1 v =>
          evalBindArgs f ps tl (envSet st1 appEnv p v) e appEnv) ∧
    lastOutcome 100 progBodyOrder = some (.ok (.sexpVal (.int 9))) ∧
    lastOutcome 100 progSharedParamEnv = some (.ok (.sexpVal (.int 2))) ∧
    ((runProg 100 progSharedParamEnv).bind fun r =>
      envLookup r.1.length r.1 1 "x") = some (.sexpVal (.int 2)) := by
  refine ⟨fun _ _ _ _ _ => rfl, ?_, fun _ _ _ _ _ _ _ _ => rfl, rfl, rfl, rfl⟩
  intro f params body envId argAs st st2 e h h2
  simp only [evalApply, if_pos h, h2, bindResult]

/-- C1 witness: the matching-arity conjunct applied to `(lambda (x) x)`
called with the literal `5` from a session whose store already holds the
closure's captured environment at index 1. -/
theorem claim1_lambda_application_witness :
    List.length ["x"] = List.length [AST.literal (.sexpVal (.int 5))] ∧
    evalApply 5 (.lambdaVal ["x"] [.lookupA "x"] 1)
        [.literal (.sexpVal (.int 5))] oneChildStore 0 =
      evalSeq 4 [.lookupA "x"]
        (envSet oneChildStore 1 "x" (.sexpVal (.int 5))) 1 :=
  ⟨rfl, claim1_lambda_application.2.1 4 ["x"] [.lookupA "x"] 1
    [.literal (.sexpVal (.int 5))] oneChildStore
    (envSet oneChildStore 1 "x" (.sexpVal (.int 5))) 0 rfl rfl⟩

/-- C2 counterexample: the claim says every value other than nil is truthy,
so `(if (lambda () 1) 10 20)` should evaluate the then branch and return
`10`; instead the promoted `IsNil` dereferences the closure value's nil
embedded `*SExp` and the interpreter panics. -/
theorem claim2_counterexample :
    progOutcomes 100 progIfClosureCond = some [.panicked nilDerefMsg] ∧
    some [Outcome.panicked nilDerefMsg] ≠ some [Outcome.ok (.sexpVal (.int 10))] :=
  ⟨rfl, by simp⟩

/-- C2 amended: an `if` evaluates its condition first and dispatches on the
condition value's `IsNil` (first conjunct); nil selects the else branch,
any other s-expression-backed value — including integer zero and the empty
string — selects the then branch, and exactly one branch is evaluated
(branch-dispatch conjuncts and the `progIfOneBranch` run, where only the
else branch's `set` happened); but a closure or primitive value in
condition position is not truthy: it crashes with a nil-pointer panic. -/
theorem claim2_amended :
    (∀ (f : Nat) (c t el : AST) (st : Store) (e : Nat),
      evalAST (f + 1) (.ifA c t el) st e =
        okStep (evalAST f c st e) fun st1 v =>
          evalCondBranch f v.isNilGo t el st1 e) ∧
    (∀ (f : Nat) (t el : AST) (st : Store) (e : Nat),
      evalCondBranch (f + 1) (some true) t el st e = evalAST f el st e) ∧
    (∀ (f : Nat) (t el : AST) (st : Store) (e : Nat),
      evalCondBranch (f + 1) (some false) t el st e = evalAST f t st e) ∧
    (∀ (f : Nat) (t el : AST) (st : Store) (e : Nat),
      evalCondBranch (f + 1) none t el st e = some (st, .panicked nilDerefMsg)) ∧
    nilValue.isNilGo = some true ∧
    (Value.sexpVal (.int 0)).isNilGo = some false ∧
    (Value.sexpVal (.str "")).isNilGo = some false ∧
    (∀ (ps : List String) (body : List AST) (i : Nat),
      (Value.lambdaVal ps body i).isNilGo = none) ∧
    progOutcomes 100 progIfNil = some [.ok (.sexpVal (.int 20))] ∧
    progOutcomes 100 progIfZero = some [.ok (.sexpVal (.int 10))] ∧
    progOutcomes 100 progIfEmptyStr = some [.ok (.sexpVal (.int 10))] ∧
    progOutcomes 100 progIfOneBranch =
      some [.ok (.sexpVal (.int 2)), .err "undefined variable a",
            .ok (.sexpVal (.int 2))] ∧
    progOutcomes 100 progIfClosureCond = some [.panicked nilDerefMsg] :=
  ⟨fun _ _ _ _ _ _ => rfl, fun _ _ _ _ _ => rfl, fun _ _ _ _ _ => rfl,
   fun _ _ _ _ _ => rfl, rfl, rfl, rfl, fun _ _ _ => rfl,
   rfl, rfl, rfl, rfl, rfl⟩

/-- C6: symbol lookup consults the innermost environment first and the
first binding found wins (first conjunct); a miss in the cursor's own table
walks outward to the parent (second conjunct); a miss at the root fails
(third conjunct); and evaluating a symbol whose lookup fails through the
whole chain is the `undefined variable` error naming the symbol (fourth
conjunct). -/
theorem claim6_symbol_lookup :
    (∀ (f : Nat) (st : Store) (e : Nat) (sym : String) (d : EnvData) (v : Value),
      st.get? e = some d → lookupVars d.vars sym = some v →
      envLookup (f + 1) st e sym = some v) ∧
    (∀ (f : Nat) (st : Store) (e : Nat) (sym : String) (d : EnvData) (p : Nat),
      st.get? e = some d → lookupVars d.vars sym = none → d.parent = some p →
      envLookup (f + 1) st e sym = envLookup f st p sym) ∧
    (∀ (f : Nat) (st : Store) (e : Nat) (sym : String) (d : EnvData),
      st.get? e = some d → lookupVars d.vars sym = none → d.parent = none →
      envLookup (f + 1) st e sym = none) ∧
    (∀ (f : Nat) (st : Store) (e : Nat) (sym : String),
      envLookup st.length st e sym = none →
      evalAST (f + 1) (.lookupA sym) st e =
        some (st, .err ("undefined variable " ++ sym))) := by
  refine ⟨?_, ?_, ?_, ?_⟩
  · intro f st e sym d v h1 h2
    simp only [envLookup, h1, envStep, h2]
  · intro f st e sym d p h1 h2 h3
    simp only [envLookup, h1, envStep, h2, h3]
  · intro f st e sym d h1 h2 h3
    simp only [envLookup, h1, envStep, h2, h3]
  · intro f st e sym h
    simp only [evalAST, h, lookupOutcome]

/-- C6 witness: the four conjuncts applied to the concrete two-environment
chain `chainStore`. -/
theorem claim6_symbol_lookup_witness :
    envLookup 8 chainStore 1 "y" = some (.sexpVal (.int 1)) ∧
    envLookup 8 chainStore 1 "x" = envLookup 7 chainStore 0 "x" ∧
    envLookup 8 chainStore 0 "z" = none ∧
    evalAST 3 (.lookupA "z") chainStore 0 =
      some (chainStore, .err ("undefined variable " ++ "z")) :=
  ⟨claim6_symbol_lookup.1 7 chainStore 1 "y"
      ⟨[("y", .sexpVal (.int 1))], some 0⟩ (.sexpVal (.int 1)) rfl rfl,
   claim6_symbol_lookup.2.1 7 chainStore 1 "x"
      ⟨[("y", .sexpVal (.int 1))], some 0⟩ 0 rfl rfl rfl,
   claim6_symbol_lookup.2.2.1 7 chainStore 0 "z"
      ⟨[("x", nilValue)], none⟩ rfl rfl rfl,
   claim6_symbol_lookup.2.2.2 2 chainStore 0 "z" rfl⟩

/-- C7: a 2-element `(if a)` fails while the AST is being built — for any
store and any environment the store is returned untouched with the compile
error, so no evaluation can have happened (first conjunct, and the
`progIfMalformed` run where the condition's `(set x 1)` observably never
executed); any element count other than 3 or 4 is rejected the same way
(second conjunct); with 3 elements the else branch defaults to the nil
literal (third conjunct). -/
theorem claim7_malformed_if :
    (∀ (f : Nat) (st : Store) (e : Nat),
      envEval (f + 4) (.list [.symbol "if", .symbol "a"]) st e =
        some (st, .err "makeAst((if a)): if requires 2 or 3 args: [if a]")) ∧
    (∀ (f : Nat) (xs : List SExp), xs.length ≠ 3 → xs.length ≠ 4 →
      makeIfAST (f + 1) xs =
        some (.error ("if requires 2 or 3 args: " ++ sexpsSliceStr xs))) ∧
    (∀ (f : Nat) (c t : SExp) (condA thenA : AST),
      makeAST (f + 1) c = some (.ok condA) →
      makeAST (f + 1) t = some (.ok thenA) →
      makeIfAST (f + 2) [.symbol "if", c, t] =
        some (.ok (.ifA condA thenA (.literal nilValue)))) ∧
    progOutcomes 100 progIfMalformed =
      some [.err "makeAst((if (set x 1))): if requires 2 or 3 args: [if (set x 1)]",
            .err "undefined variable x"] := by
  refine ⟨fun _ _ _ => rfl, ?_, ?_, rfl⟩
  · intro f xs h3 h4
    match xs with
    | [] => rfl
    | [_] => rfl
    | [_, _] => rfl
    | [_, _, _] => exact absurd rfl h3
    | [_, _, _, _] => exact absurd rfl h4
    | _ :: _ :: _ :: _ :: _ :: _ => rfl
  · intro f c t condA thenA h1 h2
    simp only [makeIfAST, h2, compStep, h1]

/-- C7 witness: the element-count conjunct at the 2-element `(if a)` and
the else-default conjunct at `(if 1 2)`. -/
theorem claim7_malformed_if_witness :
    makeIfAST 3 [.symbol "if", .symbol "a"] =
      some (.error ("if requires 2 or 3 args: " ++
        sexpsSliceStr [.symbol "if", .symbol "a"])) ∧
    makeIfAST 3 [.symbol "if", .int 1, .int 2] =
      some (.ok (.ifA (.literal (.sexpVal (.int 1)))
        (.literal (.sexpVal (.int 2))) (.literal nilValue))) :=
  ⟨claim7_malformed_if.2.1 2 [.symbol "if", .symbol "a"] (by decide) (by decide),
   claim7_malformed_if.2.2.1 1 (.int 1) (.int 2)
     (.literal (.sexpVal (.int 1))) (.literal (.sexpVal (.int 2))) rfl rfl⟩

/-- Wrapping the running sum before an addition is the same as wrapping the
whole addition: `wrap64` is a homomorphism for `+` modulo `2 ^ 64`. -/
theorem wrap64_add_wrap (a b : Int) : wrap64 (wrap64 a + b) = wrap64 (a + b) := by
  unfold wrap64
  have h : ((a + 2 ^ 63) % 2 ^ 64 - 2 ^ 63 + b + 2 ^ 63) =
      ((a + 2 ^ 63) % 2 ^ 64 + b) := by ring
  rw [h, Int.emod_add_emod]
  ring_nf

/-- The `add` loop over an all-integer argument list accumulates the wrapped
sum: from a wrapped running sum it produces the wrapped total. -/
theorem addLoop_ints (xs : List Int) : ∀ (i : Nat) (sum : Int),
    addLoop (xs.map fun n => Value.sexpVal (.int n)) i (wrap64 sum) =
      .ok (.sexpVal (.int (wrap64 (sum + xs.sum)))) := by
  induction xs with
  | nil => intro i sum; simp [addLoop]
  | cons x rest ih =>
    intro i sum
    simp only [List.map_cons, addLoop, intArgStep, Value.asIntGo, SExp.asInt,
      wrap64_add_wrap, ih, List.sum_cons]
    ring_nf

/-- The `add` loop hits a non-integer s-expression after `xs.length`
integers: the positional type error, with the position offset by the
starting index. -/
theorem addLoop_typeErr (xs : List Int) :
    ∀ (i : Nat) (sum : Int) (s : SExp) (rest : List Value), s.asInt = none →
    addLoop ((xs.map fun n => Value.sexpVal (.int n)) ++ .sexpVal s :: rest) i sum =
      .err ("add argument[" ++ natRepr (i + xs.length) ++ "] is not int: " ++
        valueString (.sexpVal s)) := by
  induction xs with
  | nil =>
    intro i sum s rest h
    simp [addLoop, intArgStep, Value.asIntGo, h]
  | cons x tl ih =>
    intro i sum s rest h
    simp only [List.map_cons, List.cons_append, addLoop, intArgStep,
      Value.asIntGo, SExp.asInt, List.append_eq]
    rw [ih (i + 1) (wrap64 (sum + x)) s rest h]
    have harith : i + 1 + tl.length = i + (x :: tl).length := by
      simp [List.length_cons]; omega
    rw [harith]

/-- The `add` loop panics at the first argument whose embedded `*SExp` is
nil (a closure, primitive, or nil `*Value`). -/
theorem addLoop_panic (xs : List Int) :
    ∀ (i : Nat) (sum : Int) (v : Value) (rest : List Value), v.asIntGo = none →
    addLoop ((xs.map fun n => Value.sexpVal (.int n)) ++ v :: rest) i sum =
      .panicked nilDerefMsg := by
  induction xs with
  | nil =>
    intro i sum v rest h
    simp [addLoop, intArgStep, h]
  | cons x tl ih =>
    intro i sum v rest h
    simp only [List.map_cons, List.cons_append, addLoop, intArgStep,
      Value.asIntGo, SExp.asInt, List.append_eq]
    exact ih (i + 1) (wrap64 (sum + x)) v rest h

/-- C5 counterexample: `add` computes with Go's wrapping 64-bit `int`, so
`(add 9223372036854775807 1)` — both arguments derivable from integer
literals — returns the wrapped value `-9223372036854775808`, not the integer
sum `2 ^ 63` the claim requires (first two conjuncts); and a closure
argument is not answered with a positional type error at all: the promoted
`AsInt` dereferences the closure's nil embedded `*SExp` and the interpreter
panics (last two conjuncts). -/
theorem claim5_counterexample :
    addPrim [.sexpVal (.int 9223372036854775807), .sexpVal (.int 1)] =
      .ok (.sexpVal (.int (-9223372036854775808))) ∧
    Outcome.ok (.sexpVal (.int (-9223372036854775808))) ≠
      .ok (.sexpVal (.int 9223372036854775808)) ∧
    addPrim [.lambdaVal [] [] 0] = .panicked nilDerefMsg ∧
    (∀ m : String, Outcome.panicked nilDerefMsg ≠ .err m) :=
  ⟨rfl, by simp, rfl, fun m => by simp⟩

/-- C5 amended: on an all-integer argument list `add` returns the sum
wrapped to a signed 64-bit integer (equal to the integer sum whenever that
fits); the first argument that is a non-integer s-expression value produces
the type error naming its position and rendered value; the first argument
with no embedded s-expression (closure or primitive value) makes the
interpreter panic instead of returning an error. -/
theorem claim5_amended :
    (∀ xs : List Int,
      addPrim (xs.map fun n => Value.sexpVal (.int n)) =
        .ok (.sexpVal (.int (wrap64 xs.sum)))) ∧
    (∀ (xs : List Int) (s : SExp) (rest : List Value), s.asInt = none →
      addPrim ((xs.map fun n => Value.sexpVal (.int n)) ++ .sexpVal s :: rest) =
        .err ("add argument[" ++ natRepr xs.length ++ "] is not int: " ++
          valueString (.sexpVal s))) ∧
    (∀ (xs : List Int) (v : Value) (rest : List Value), v.asIntGo = none →
      addPrim ((xs.map fun n => Value.sexpVal (.int n)) ++ v :: rest) =
        .panicked nilDerefMsg) := by
  refine ⟨?_, ?_, ?_⟩
  · intro xs
    have h0 : (0 : Int) = wrap64 0 := by norm_num [wrap64]
    have h := addLoop_ints xs 0 0
    rw [← h0] at h
    simpa using h
  · intro xs s rest h
    have := addLoop_typeErr xs 0 0 s rest h
    simpa using this
  · intro xs v rest h
    exact addLoop_panic xs 0 0 v rest h

/-- C5 amended witness: `(add 7 "a")` produces the positional type error at
index 1, and a closure argument at index 0 panics. -/
theorem claim5_amended_witness :
    (SExp.str "a").asInt = none ∧
    addPrim (([7] : List Int).map (fun n => Value.sexpVal (.int n)) ++
        .sexpVal (.str "a") :: []) =
      .err ("add argument[" ++ natRepr ([7] : List Int).length ++
        "] is not int: " ++ valueString (.sexpVal (.str "a"))) ∧
    addPrim (([] : List Int).map (fun n => Value.sexpVal (.int n)) ++
        Value.lambdaVal [] [] 0 :: []) = .panicked nilDerefMsg :=
  ⟨rfl, claim5_amended.2.1 [7] (.str "a") [] rfl,
   claim5_amended.2.2 [] (.lambdaVal [] [] 0) [] rfl⟩

/-! ## Round-trip lemmas (C8) -/

/-- `takeWhile` keeps a list all of whose elements satisfy the predicate. -/
theorem takeWhile_all {α : Type} {p : α → Bool} :
    ∀ {l : List α}, (∀ x ∈ l, p x = true) → l.takeWhile p = l := by
  intro l
  induction l with
  | nil => intro _; rfl
  | cons a tl ih =>
    intro h
    have ha := h a (List.mem_cons_self a tl)
    simp [List.takeWhile_cons, ha, ih fun x hx => h x (List.mem_cons_of_mem a hx)]

/-- `dropWhile` drops a list all of whose elements satisfy the predicate. -/
theorem dropWhile_all {α : Type} {p : α → Bool} :
    ∀ {l : List α}, (∀ x ∈ l, p x = true) → l.dropWhile p = [] := by
  intro l
  induction l with
  | nil => intro _; rfl
  | cons a tl ih =>
    intro h
    have ha := h a (List.mem_cons_self a tl)
    simp [List.dropWhile_cons, ha, ih fun x hx => h x (List.mem_cons_of_mem a hx)]

/-- Every character `digitChar` produces is a decimal digit. -/
theorem digitChar_isDigit (d : Nat) : isDigitChar (digitChar d) = true := by
  match d with
  | 0 | 1 | 2 | 3 | 4 | 5 | 6 | 7 | 8 => rfl
  | _ + 9 => rfl

/-- For a nonzero digit value the produced character is in `[1-9]`. -/
theorem digitChar_digit19 {d : Nat} (h : 1 ≤ d) : isDigit19 (digitChar d) = true := by
  match d with
  | 0 => omega
  | 1 | 2 | 3 | 4 | 5 | 6 | 7 | 8 => rfl
  | _ + 9 => rfl

/-- Decoding inverts `digitChar` below ten. -/
theorem digitChar_toNat {d : Nat} (h : d < 10) : (digitChar d).toNat - 48 = d := by
  match d with
  | 0 | 1 | 2 | 3 | 4 | 5 | 6 | 7 | 8 | 9 => rfl
  | _ + 10 => omega

/-- A decimal digit character is not whitespace, not a parenthesis, not
alphabetic, and not a quote — so only the number tokenizer can claim it. -/
theorem digit_head_facts {c : Char} (h : isDigit19 c = true) :
    isGoSpace c = false ∧ ¬(c = '(') ∧ ¬(c = ')') ∧ isGoAlpha c = false ∧
      ¬(c = '"') := by
  simp only [isDigit19, Bool.and_eq_true, decide_eq_true_eq] at h
  refine ⟨?_, ?_, ?_, ?_, ?_⟩
  · simp only [isGoSpace, Bool.or_eq_false_iff, beq_eq_false_iff_ne, ne_eq]
    refine ⟨⟨⟨⟨?_, ?_⟩, ?_⟩, ?_⟩, ?_⟩ <;> (rintro rfl; exact absurd h (by decide))
  · rintro rfl; exact absurd h (by decide)
  · rintro rfl; exact absurd h (by decide)
  · simp only [isGoAlpha, Bool.or_eq_false_iff, Bool.and_eq_false_iff]
    constructor <;> (simp only [decide_eq_false_iff_not, not_le]; omega)
  · rintro rfl; exact absurd h (by decide)

/-- Every character of a `natDigitsF` rendering is a decimal digit. -/
theorem natDigitsF_all_digits : ∀ (f n : Nat), ∀ c ∈ natDigitsF f n, isDigitChar c = true := by
  intro f
  induction f with
  | zero => intro n c hc; simp [natDigitsF] at hc
  | succ f ih =>
    intro n c hc
    unfold natDigitsF at hc
    by_cases h : n < 10
    · rw [if_pos h] at hc
      simp only [List.mem_singleton] at hc
      subst hc
      exact digitChar_isDigit n
    · rw [if_neg h] at hc
      rcases List.mem_append.mp hc with hc | hc
      · exact ih _ c hc
      · simp only [List.mem_singleton] at hc
        subst hc
        exact digitChar_isDigit _

/-- With enough fuel and a positive input, the rendering starts with a
nonzero digit (no leading zero). -/
theorem natDigitsF_head19 : ∀ (f n : Nat), n < f → 1 ≤ n →
    ∃ c cs, natDigitsF f n = c :: cs ∧ isDigit19 c = true := by
  intro f
  induction f with
  | zero => omega
  | succ f ih =>
    intro n hf h1
    by_cases h : n < 10
    · refine ⟨digitChar n, [], ?_, digitChar_digit19 h1⟩
      unfold natDigitsF
      rw [if_pos h]
    · have hrec := ih (n / 10) (by omega) (by omega)
      rcases hrec with ⟨c, cs, heq, hc⟩
      refine ⟨c, cs ++ [digitChar (n % 10)], ?_, hc⟩
      unfold natDigitsF
      rw [if_neg h, heq]
      rfl

/-- Digit accumulation splits over list append. -/
theorem parseDigitsAcc_append (xs ys : List Char) : ∀ acc,
    parseDigitsAcc acc (xs ++ ys) = parseDigitsAcc (parseDigitsAcc acc xs) ys := by
  induction xs with
  | nil => intro acc; rfl
  | cons x tl ih =>
    intro acc
    show parseDigitsAcc (acc * 10 + (x.toNat - 48)) (tl ++ ys) = _
    rw [ih]
    rfl

/-- Decoding a `natDigitsF` rendering recovers the value (shifted past the
accumulator). -/
theorem parseDigitsAcc_natDigitsF : ∀ (f n : Nat), n < f → ∀ acc,
    parseDigitsAcc acc (natDigitsF f n) =
      acc * 10 ^ (natDigitsF f n).length + n := by
  intro f
  induction f with
  | zero => omega
  | succ f ih =>
    intro n hf acc
    unfold natDigitsF
    by_cases h : n < 10
    · rw [if_pos h]
      show acc * 10 + ((digitChar n).toNat - 48) = acc * 10 ^ 1 + n
      rw [digitChar_toNat h]; ring_nf
    · rw [if_neg h]
      rw [parseDigitsAcc_append]
      rw [ih (n / 10) (by omega) acc]
      show (acc * 10 ^ (natDigitsF f (n / 10)).length + n / 10) * 10 +
          ((digitChar (n % 10)).toNat - 48) = _
      rw [digitChar_toNat (by omega)]
      have hlen : (natDigitsF f (n / 10) ++ [digitChar (n % 10)]).length =
          (natDigitsF f (n / 10)).length + 1 := by simp
      rw [hlen, pow_succ]
      have hdm : n / 10 * 10 + n % 10 = n := by omega
      calc (acc * 10 ^ (natDigitsF f (n / 10)).length + n / 10) * 10 + n % 10
          = acc * (10 ^ (natDigitsF f (n / 10)).length * 10) +
            (n / 10 * 10 + n % 10) := by ring
        _ = acc * (10 ^ (natDigitsF f (n / 10)).length * 10) + n := by rw [hdm]

/-- A `[1-9][0-9]*` character list is claimed whole, and only, by the
number tokenizer. -/
theorem tokenize1_digits {c : Char} {cs : List Char}
    (hc : isDigit19 c = true) (hcs : ∀ x ∈ cs, isDigitChar x = true) :
    tokenize1 (c :: cs) = some (⟨.numberLiteral, c :: cs⟩, []) := by
  obtain ⟨hsp, hop, hcp, hal, hq⟩ := digit_head_facts hc
  unfold tokenize1 tokSpace tokOpenParen tokCloseParen tokSymbol
    tokStringLiteral tokNumberLiteral
  simp only [List.takeWhile_cons, hsp, cond_false, if_neg hop, if_neg hcp,
    if_neg hq, hal, Bool.false_eq_true, if_false, if_pos hc,
    takeWhile_all hcs, dropWhile_all hcs]

/-- Tokenizing a `[1-9][0-9]*` string yields exactly one number-literal
token. -/
theorem tokenizeAll_digits {c : Char} {cs : List Char}
    (hc : isDigit19 c = true) (hcs : ∀ x ∈ cs, isDigitChar x = true) :
    tokenizeAll (String.mk (c :: cs)) = .ok [⟨.numberLiteral, c :: cs⟩] := by
  show tokenizeLoop (cs.length + 1) (c :: cs) = _
  simp only [tokenizeLoop]
  rw [tokenize1_digits hc hcs]
  simp only [tokStep]
  rw [if_neg (by simp)]
  simp only [tokenizeLoop]
  rfl

/-- Parsing a lone number-literal token whose digits decode in range yields
the integer leaf. -/
theorem goParse_number {cs : List Char} {n : Int} (h : parseInt64 cs = some n) :
    goParse [⟨.numberLiteral, cs⟩] = .ok [.int n] := by
  show parseLoop 8 false [] [⟨.numberLiteral, cs⟩] = _
  simp only [parseLoop, parseStep, parse1, parseIntTok, h, exceptStep]
  simp

/-- Parsing a lone string-literal token strips the outer quotes and nothing
else. -/
theorem goParse_string {cs : List Char} :
    goParse [⟨.stringLiteral, cs⟩] = .ok [.str (String.mk (stripEnds cs))] := rfl

/-- A safe character is rendered as itself by the quoting. -/
theorem goQuoteChar_safe {c : Char} (h : safeChar c = true) : goQuoteChar c = [c] := by
  simp only [safeChar, Bool.and_eq_true, decide_eq_true_eq, bne_iff_ne, ne_eq] at h
  obtain ⟨⟨⟨h1, h2⟩, h3⟩, h4⟩ := h
  unfold goQuoteChar
  rw [if_neg h3, if_neg h4, if_neg, if_neg, if_neg, if_neg, if_neg, if_neg,
    if_neg, if_pos ⟨h1, h2⟩]
  all_goals (rintro rfl; exact absurd h1 (by decide))

/-- A safe character list is rendered verbatim inside the quotes. -/
theorem goQuoteInner_safe : ∀ {l : List Char},
    (∀ c ∈ l, safeChar c = true) → goQuoteInner l = l := by
  intro l
  induction l with
  | nil => intro _; rfl
  | cons c tl ih =>
    intro h
    show goQuoteChar c ++ goQuoteInner tl = c :: tl
    rw [goQuoteChar_safe (h c (List.mem_cons_self c tl)),
      ih fun x hx => h x (List.mem_cons_of_mem c hx)]
    rfl

/-- The string-literal scanner consumes a safe body up to the closing
quote. -/
theorem strLitScan_safe : ∀ {body : List Char} (rest : List Char),
    (∀ c ∈ body, safeChar c = true) →
    strLitScan (body ++ '"' :: rest) = some (body, rest) := by
  intro body
  induction body with
  | nil =>
    intro rest _
    cases rest with
    | nil => rfl
    | cons r rs => rfl
  | cons c tl ih =>
    intro rest h
    have hc := h c (List.mem_cons_self c tl)
    simp only [safeChar, Bool.and_eq_true, decide_eq_true_eq, bne_iff_ne, ne_eq] at hc
    obtain ⟨⟨⟨_, _⟩, h3⟩, h4⟩ := hc
    have htl : ∀ x ∈ tl, safeChar x = true := fun x hx => h x (List.mem_cons_of_mem c hx)
    cases hb : tl ++ '"' :: rest with
    | nil => exact absurd hb (by simp)
    | cons d ds =>
      have : (c :: tl) ++ '"' :: rest = c :: d :: ds := by
        rw [List.cons_append, hb]
      rw [this]
      unfold strLitScan
      rw [if_neg h3, if_neg h4, ← hb, ih rest htl]
      rfl

/-- The quote head character fails the five earlier tokenizers, so a quoted
safe body tokenizes as one string-literal token spanning the whole input. -/
theorem tokenizeAll_strlit {body : List Char}
    (h : ∀ c ∈ body, safeChar c = true) :
    tokenizeAll (String.mk ('"' :: (body ++ ['"']))) =
      .ok [⟨.stringLiteral, '"' :: (body ++ ['"'])⟩] := by
  have hl : (String.mk ('"' :: (body ++ ['"']))).length = body.length + 1 + 1 := by
    show ('"' :: (body ++ ['"'])).length = _
    simp
  unfold tokenizeAll
  rw [hl]
  have hscan : strLitScan (body ++ ['"']) = some (body, []) := strLitScan_safe [] h
  have e_sp : tokSpace ('"' :: (body ++ ['"'])) = none := by
    unfold tokSpace
    rw [List.takeWhile_cons, if_neg (by decide : ¬(isGoSpace '"' = true))]
  have e_sy : tokSymbol ('"' :: (body ++ ['"'])) = none := by
    simp only [tokSymbol]
    rw [if_neg (by decide : ¬(isGoAlpha '"' = true))]
  have e_str : tokStringLiteral ('"' :: (body ++ ['"'])) =
      some (⟨.stringLiteral, '"' :: (body ++ ['"'])⟩, []) := by
    simp only [tokStringLiteral, if_true]
    rw [hscan]
    rfl
  have ht1 : tokenize1 ('"' :: (body ++ ['"'])) =
      some (⟨.stringLiteral, '"' :: (body ++ ['"'])⟩, []) := by
    unfold tokenize1
    rw [e_sp, e_sy]
    show (match tokStringLiteral ('"' :: (body ++ ['"'])) with
      | some r => some r
      | none => tokNumberLiteral ('"' :: (body ++ ['"']))) = _
    rw [e_str]
  simp only [tokenizeLoop]
  rw [ht1]
  simp only [tokStep]
  rw [if_neg (by simp)]
  simp only [tokenizeLoop]
  rfl

/-- C8 counterexample: the string value consisting of a backslash and a
quote is derivable from the source literal `"\""` (first conjunct: the
tokenizer accepts the escape sequence and the parser strips only the outer
quotes, keeping the backslash).  Rendering that value re-escapes both
characters and re-parsing keeps the new backslashes, producing the
four-character value `\\\"` — not the original two-character value, so the
render/re-parse round-trip fails for string values with escapes. -/
theorem claim8_counterexample :
    readLine (String.mk ['"', '\\', '"', '"']) =
      .ok [.str (String.mk ['\\', '"'])] ∧
    renderReparse (.str (String.mk ['\\', '"'])) =
      .ok [.str (String.mk ['\\', '\\', '\\', '"'])] ∧
    String.mk ['\\', '\\', '\\', '"'] ≠ String.mk ['\\', '"'] :=
  ⟨rfl, rfl, by decide⟩

/-- C8 amended: the render/re-parse round-trip holds for every value
derivable from an integer literal (all of which are in `[1, 2 ^ 63)` —
the number regexp admits no sign and no leading zero, and larger numerals
fail `ParseInt`), and it holds for string values whose characters the
renderer leaves unescaped — in particular (second conjunct) whenever every
character is printable ASCII other than the double quote and the backslash.
That condition is sufficient, not exact: printable characters outside ASCII
are also rendered verbatim and round-trip too, as the third conjunct checks
on a concrete non-ASCII string.  The round-trip is not universal, however:
`claim8_counterexample` exhibits a string value, derived from a string
literal through an escape sequence, that the renderer escapes and the
parser — which only strips the outer quotes and never unescapes — re-parses
to a different value. -/
theorem claim8_amended :
    (∀ n : Int, 1 ≤ n → n < 2 ^ 63 → renderReparse (.int n) = .ok [.int n]) ∧
    (∀ s : String, (∀ c ∈ s.data, safeChar c = true) →
      renderReparse (.str s) = .ok [.str s]) ∧
    renderReparse (.str "é") = .ok [.str "é"] := by
  refine ⟨?_, ?_, rfl⟩
  · intro n h1 h2
    have hnn : ¬(n < 0) := by omega
    have hm1 : 1 ≤ n.toNat := by omega
    have hmf : n.toNat < n.toNat + 1 := Nat.lt_succ_self _
    obtain ⟨c, cs, heq, hc⟩ := natDigitsF_head19 (n.toNat + 1) n.toNat hmf hm1
    have hall := natDigitsF_all_digits (n.toNat + 1) n.toNat
    rw [heq] at hall
    have hcs : ∀ x ∈ cs, isDigitChar x = true :=
      fun x hx => hall x (List.mem_cons_of_mem _ hx)
    have e1 : sexpString (.int n) = String.mk (c :: cs) := by
      show intRepr n = _
      unfold intRepr natRepr
      rw [if_neg hnn, heq]
    unfold renderReparse readLine
    rw [e1, tokenizeAll_digits hc hcs]
    have hval : parseDigitsAcc 0 (c :: cs) = n.toNat := by
      have hp := parseDigitsAcc_natDigitsF (n.toNat + 1) n.toNat hmf 0
      rw [heq] at hp
      simpa using hp
    have hlt : n.toNat < 2 ^ 63 := by
      have hpowN : (2 : Nat) ^ 63 = 9223372036854775808 := by norm_num
      have hpowZ : (2 : Int) ^ 63 = 9223372036854775808 := by norm_num
      rw [hpowN]
      rw [hpowZ] at h2
      omega
    have hp64 : parseInt64 (c :: cs) = some n := by
      unfold parseInt64
      simp only [hval]
      rw [if_pos hlt]
      have hofn : Int.ofNat n.toNat = n := by
        show ((n.toNat : Int)) = n
        omega
      rw [hofn]
    show goParse [⟨.numberLiteral, c :: cs⟩] = .ok [.int n]
    rw [goParse_number hp64]
  · intro s h
    obtain ⟨l⟩ := s
    have hl : ∀ c ∈ l, safeChar c = true := h
    have e1 : sexpString (.str ⟨l⟩) = String.mk ('"' :: (l ++ ['"'])) := by
      show goQuote ⟨l⟩ = _
      unfold goQuote
      rw [show (String.mk l).data = l from rfl, goQuoteInner_safe hl]
    unfold renderReparse readLine
    rw [e1, tokenizeAll_strlit hl]
    show goParse [⟨.stringLiteral, '"' :: (l ++ ['"'])⟩] = _
    rw [goParse_string]
    have e2 : stripEnds ('"' :: (l ++ ['"'])) = l := by
      unfold stripEnds
      simp
    rw [e2]

/-- C8 amended witness: round-tripping the integer `42` and the string
`hi`. -/
theorem claim8_amended_witness :
    (1 ≤ (42 : Int) ∧ (42 : Int) < 2 ^ 63 ∧
      renderReparse (.int 42) = .ok [.int 42]) ∧
    ((∀ c ∈ ("hi" : String).data, safeChar c = true) ∧
      renderReparse (.str "hi") = .ok [.str "hi"]) :=
  ⟨⟨by norm_num, by norm_num,
    claim8_amended.1 42 (by norm_num) (by norm_num)⟩,
   ⟨by decide, claim8_amended.2.1 "hi" (by decide)⟩⟩

end ToyLisp
